import Mathlib

/-!
Verification of the konsole scrollback core (History.cpp, ScreenWindow.cpp)
against its natural-language specification.

The development shallowly embeds the two source files:
  * History.cpp — HistoryFile / HistoryScrollFile (file-backed store),
    CompactHistoryLine / CompactHistoryScroll (compact in-memory store),
    HistoryScrollNone, and the three HistoryType reconfigurators.
  * ScreenWindow.cpp — the view window over history plus live screen.

Machine integers of the source are modelled as Nat (sizes, counts, byte
offsets) or Int (line coordinates, which the source manipulates as
signed ints).  File contents are modelled record-aligned: every read and
write of the cells / index / lineflags files in the source touches whole
records at record-aligned byte offsets, so a file is a list of records
whose byte length is recordSize * list length.
-/

namespace Konsole

/-- One terminal cell (History.h class Character): a 16-bit code unit plus
the format, i.e. rendition bits and the two colors.  The code unit and the
format components are modelled as plain naturals; only copying and equality
on them occur in the embedded code. -/
structure Character where
  character : Nat
  rendition : Nat
  foregroundColor : Nat
  backgroundColor : Nat
deriving DecidableEq

instance : Inhabited Character := ⟨⟨0, 0, 0, 0⟩⟩

/-- The format part of a cell as stored in a compact-history format run
(History.h struct CharacterFormat, without its startPos field, which is
carried separately as the first pair component). -/
structure CharacterFormat where
  rendition : Nat
  fgColor : Nat
  bgColor : Nat
deriving DecidableEq

instance : Inhabited CharacterFormat := ⟨⟨0, 0, 0⟩⟩

/-- Character.equalsFormat: format-only comparison of two cells (rendition
and both colors; the code point is ignored). -/
def Character.equalsFormat (a b : Character) : Bool :=
  a.rendition == b.rendition && a.foregroundColor == b.foregroundColor
    && a.backgroundColor == b.backgroundColor

/-- CharacterFormat.setFormat(c): the format captured from a cell. -/
def Character.format (c : Character) : CharacterFormat :=
  ⟨c.rendition, c.foregroundColor, c.backgroundColor⟩

/-- The blank cell used by Screen::fillWithDefaultChar: a space with the
default format.  No claim inspects its exact value. -/
def defaultChar : Character := ⟨32, 0, 0, 0⟩

/-- Per-line metadata bitfield (LineProperty).  Only the two flags the
embedded code reads are modelled; a default-constructed LineProperty has
all flags clear. -/
structure LineProperty where
  wrapped : Bool
  promptStart : Bool
deriving DecidableEq

instance : Inhabited LineProperty := ⟨⟨false, false⟩⟩

/-! ### File-backed history store (HistoryScrollFile)

The store owns three append-only files.  Each is modelled as the list of
its records, because the source only ever reads and writes whole records
at record-aligned offsets:
  * cells — one Character record per cell, record size sizeofCharacter;
  * index — one int record per committed line holding a byte offset into
    cells, record size sizeofInt;
  * lineflags — one byte per committed line holding the wrapped flag.
The model takes the success path of every HistoryFile I/O call (C5 assumes
no I/O failures); the mmap/read switch inside HistoryFile::get does not
change the bytes returned and is not modelled. -/

/-- sizeof(Character).  The embedded arithmetic only uses that this is a
fixed positive constant: all byte offsets in play are multiples of it. -/
def sizeofCharacter : Nat := 12

/-- sizeof(int), the record size of the index file. -/
def sizeofInt : Nat := 4

structure HistoryScrollFile where
  cells : List Character
  index : List Nat
  lineflags : List Bool
deriving DecidableEq

/-- The empty store produced by the HistoryScrollFile constructor
(three fresh empty temp files). -/
def emptyScrollFile : HistoryScrollFile := ⟨[], [], []⟩

/-- getLines() = index.len() / sizeof(int).  The index file holds one int
per line, so its byte length is sizeofInt * index.length. -/
def HistoryScrollFile.getLines (s : HistoryScrollFile) : Nat :=
  sizeofInt * s.index.length / sizeofInt

/-- startOfLine (History.cpp 228-241): 0 for line 0 (the source also
returns 0 for negative linenos, which Nat folds into the 0 case); the
stored index entry for 1 <= lineno <= getLines(); cells.len() beyond. -/
def HistoryScrollFile.startOfLine (s : HistoryScrollFile) (lineno : Nat) : Nat :=
  if lineno = 0 then 0
  else if lineno ≤ s.getLines then s.index.getD (lineno - 1) 0
  else sizeofCharacter * s.cells.length

/-- getLineLen(lineno) = (startOfLine(lineno+1) - startOfLine(lineno)) /
sizeof(Character). -/
def HistoryScrollFile.getLineLen (s : HistoryScrollFile) (lineno : Nat) : Nat :=
  (s.startOfLine (lineno + 1) - s.startOfLine lineno) / sizeofCharacter

/-- getCells reads count * sizeof(Character) bytes at byte offset
startOfLine(lineno) + colno * sizeof(Character).  Both quantities are
multiples of sizeof(Character), so on the record-aligned model this is a
take of count records starting at the record index offset / size. -/
def HistoryScrollFile.getCells (s : HistoryScrollFile) (lineno colno count : Nat) :
    List Character :=
  (s.cells.drop ((s.startOfLine lineno + colno * sizeofCharacter) / sizeofCharacter)).take count

/-- isWrappedLine reads the flag byte at offset lineno when
0 <= lineno <= getLines().  At lineno = getLines() the source reads one
byte past the data ever written (noted in the spec as a latent quirk); the
model returns the read default false there.  Claims only use
lineno < getLines(). -/
def HistoryScrollFile.isWrappedLine (s : HistoryScrollFile) (lineno : Nat) : Bool :=
  if lineno ≤ s.getLines then s.lineflags.getD lineno false else false

/-- addCells appends count cells to the cells file. -/
def HistoryScrollFile.addCells (s : HistoryScrollFile) (text : List Character) :
    HistoryScrollFile :=
  { s with cells := s.cells ++ text }

/-- addLine snapshots cells.len() into the index file and the wrapped flag
byte into the lineflags file. -/
def HistoryScrollFile.addLine (s : HistoryScrollFile) (previousWrapped : Bool) :
    HistoryScrollFile :=
  { s with
    index := s.index ++ [sizeofCharacter * s.cells.length]
    lineflags := s.lineflags ++ [previousWrapped] }

/-- A sequence of paired addCells/addLine calls committing one line each,
starting from a fresh store. -/
def runFile (ws : List (List Character × Bool)) : HistoryScrollFile :=
  ws.foldl (fun s cw => (s.addCells cw.1).addLine cw.2) emptyScrollFile

/-- Specification-side helper used only by the proofs: the index-file
records produced by a run of paired writes when the cells file already
holds base bytes. -/
def idxFrom (base : Nat) : List (List Character × Bool) → List Nat
  | [] => []
  | cw :: t =>
    (base + sizeofCharacter * cw.1.length)
      :: idxFrom (base + sizeofCharacter * cw.1.length) t

/-- Specification-side helper used only by the proofs: total cell count
of the first j committed lines. -/
def sumLen (ws : List (List Character × Bool)) (j : Nat) : Nat :=
  ((ws.take j).map (fun cw => cw.1.length)).sum

/-! ### Compact history line (CompactHistoryLine) -/

/-- The format runs recorded by the CompactHistoryLine constructor for the
cells after position 0: c is the cell that opened the current run, k the
position of the head of the remaining cells.  An entry (k, format) is
recorded exactly when the cell at k differs in format from c, which is the
common condition of both constructor scans (the counting scan and the
recording scan), so the recording loop bound j < formatLength never cuts
the list short; countFormats below ties the two scans together. -/
def runsFrom (c : Character) (k : Nat) : List Character → List (Nat × CharacterFormat)
  | [] => []
  | x :: t =>
    if x.equalsFormat c then runsFrom c (k + 1) t
    else (k, x.format) :: runsFrom x (k + 1) t

/-- The full format array of a line: position 0 always starts a run. -/
def formatRunsOf : List Character → List (Nat × CharacterFormat)
  | [] => []
  | c :: t => (0, c.format) :: runsFrom c 1 t

/-- The counting scan of the constructor (formatLength), for the cells
after the current change point c. -/
def countFormatsFrom (c : Character) : List Character → Nat
  | [] => 0
  | x :: t => if x.equalsFormat c then countFormatsFrom c t else 1 + countFormatsFrom x t

/-- formatLength as computed by the first constructor scan. -/
def countFormats : List Character → Nat
  | [] => 0
  | c :: t => 1 + countFormatsFrom c t

/-- One compact history line: cell count, format-run array, code-point
array, wrapped flag. -/
structure CompactHistoryLine where
  length : Nat
  formatArray : List (Nat × CharacterFormat)
  text : List Nat
  wrapped : Bool
deriving DecidableEq

instance : Inhabited CompactHistoryLine := ⟨⟨0, [], [], false⟩⟩

/-- The CompactHistoryLine constructor (History.cpp 376-430).  For an
empty input no arrays are allocated; wrapped is then left uninitialized by
the source and modelled as false (no claim reads it for empty lines). -/
def mkCompactHistoryLine (line : List Character) : CompactHistoryLine :=
  { length := line.length
    formatArray := formatRunsOf line
    text := line.map (·.character)
    wrapped := false }

/-- The while loop inside getCharacter: starting from the current
formatPos, advance past every following entry whose startPos is at most
index, stopping at the first that is not.  The argument is the list of
entries after the current position; the result is the number of advances
taken. -/
def advanceRun : List (Nat × CharacterFormat) → Nat → Nat
  | [], _ => 0
  | (s, _) :: t, index => if s ≤ index then advanceRun t index + 1 else 0

/-- Specification-side decoder used only by the proofs: the format of the
last listed run whose startPos is at most idx, where d is the format in
force before the listed runs begin. -/
def decodeFmt (d : CharacterFormat) : List (Nat × CharacterFormat) → Nat → CharacterFormat
  | [], _ => d
  | (s, f) :: t, idx => if s ≤ idx then decodeFmt f t idx else d

/-- getCharacter (History.cpp 441-452): find the containing run by linear
scan, then combine the stored code point with the run format. -/
def CompactHistoryLine.getCharacter (l : CompactHistoryLine) (index : Nat) : Character :=
  let formatPos := advanceRun (l.formatArray.drop 1) index
  let f := (l.formatArray.getD formatPos default).2
  { character := l.text.getD index 0
    rendition := f.rendition
    foregroundColor := f.fgColor
    backgroundColor := f.bgColor }

/-- getCharacters materializes size consecutive cells starting at
startColumn: array[i - startColumn] = getCharacter(i). -/
def CompactHistoryLine.getCharacters (l : CompactHistoryLine) (size startColumn : Nat) :
    List Character :=
  (List.range size).map fun i => l.getCharacter (startColumn + i)

def CompactHistoryLine.setWrapped (l : CompactHistoryLine) (value : Bool) :
    CompactHistoryLine :=
  { l with wrapped := value }

def CompactHistoryLine.isWrapped (l : CompactHistoryLine) : Bool := l.wrapped

/-! ### Compact history store (CompactHistoryScroll) -/

structure CompactHistoryScroll where
  lines : List CompactHistoryLine
  _maxLineCount : Nat
deriving DecidableEq

/-- The eviction loop of setMaxNbLines: while lines.size() > cap, delete
the line at position 0. -/
def dropToCap (cap : Nat) : List CompactHistoryLine → List CompactHistoryLine
  | [] => []
  | x :: t => if t.length + 1 > cap then dropToCap cap t else x :: t

/-- setMaxNbLines stores the new cap and evicts oldest lines until the
count is within it. -/
def CompactHistoryScroll.setMaxNbLines (s : CompactHistoryScroll) (lineCount : Nat) :
    CompactHistoryScroll :=
  { lines := dropToCap lineCount s.lines, _maxLineCount := lineCount }

/-- The CompactHistoryScroll constructor: empty line list, then
setMaxNbLines(maxLineCount). -/
def compactNew (maxLineCount : Nat) : CompactHistoryScroll :=
  CompactHistoryScroll.setMaxNbLines ⟨[], 0⟩ maxLineCount

/-- addCellsVector (History.cpp 479-488): construct the new line; then, if
the count (before appending) exceeds _maxLineCount, destroy the line at
position 0; then append the new line. -/
def CompactHistoryScroll.addCellsVector (s : CompactHistoryScroll)
    (cells : List Character) : CompactHistoryScroll :=
  { s with
    lines :=
      (if s.lines.length > s._maxLineCount then s.lines.drop 1 else s.lines)
        ++ [mkCompactHistoryLine cells] }

/-- addCells copies the raw array into a TextLine and delegates to
addCellsVector. -/
def CompactHistoryScroll.addCells (s : CompactHistoryScroll) (a : List Character) :
    CompactHistoryScroll :=
  s.addCellsVector a

/-- addLine stamps the wrapped flag on the most recently added line.  On
an empty store the source dereferences lines.last() of an empty list
(undefined); modelled as a no-op, and no claim exercises that case. -/
def CompactHistoryScroll.addLine (s : CompactHistoryScroll) (previousWrapped : Bool) :
    CompactHistoryScroll :=
  match s.lines with
  | [] => s
  | _ :: _ =>
    { s with
      lines := s.lines.dropLast ++ [(s.lines.getLast!).setWrapped previousWrapped] }

def CompactHistoryScroll.getLines (s : CompactHistoryScroll) : Nat := s.lines.length

def CompactHistoryScroll.getLineLen (s : CompactHistoryScroll) (lineNumber : Nat) : Nat :=
  (s.lines.getD lineNumber default).length

/-- getCells (History.cpp 518-526): early return on count == 0, otherwise
delegate to the line. -/
def CompactHistoryScroll.getCells (s : CompactHistoryScroll)
    (lineNumber startColumn count : Nat) : List Character :=
  if count = 0 then []
  else (s.lines.getD lineNumber default).getCharacters count startColumn

def CompactHistoryScroll.isWrappedLine (s : CompactHistoryScroll) (lineNumber : Nat) :
    Bool :=
  (s.lines.getD lineNumber default).isWrapped

/-! ### Slab allocation accounting for CompactHistoryLine (claim C9)

CompactHistoryBlockList is abstracted to its number of live allocations:
allocate increments it, deallocate decrements it.  (The per-block
bookkeeping — bump pointers, per-block allocCount, freeing an empty
block — only redistributes that count over blocks and is not needed by
the allocation-count claim.) -/

/-- The CompactHistoryLine constructor together with its allocations: the
placement operator new takes one allocation for the line header; a
nonempty line additionally allocates the formatArray and the text array
(History.cpp 397-399).  Returns the line and the new live count. -/
def constructLineAllocs (live : Nat) (line : List Character) :
    CompactHistoryLine × Nat :=
  let live := live + 1
  if line.length > 0 then (mkCompactHistoryLine line, live + 1 + 1)
  else (mkCompactHistoryLine line, live)

/-- The CompactHistoryLine destructor: for a nonempty line deallocate the
text and format arrays, then always deallocate the header (History.cpp
432-439). -/
def destroyLineAllocs (live : Nat) (l : CompactHistoryLine) : Nat :=
  let live := if l.length > 0 then live - 1 - 1 else live
  live - 1

/-! ### History stores behind the abstract interface, and the
reconfigurators (HistoryType::scroll) -/

inductive HistoryScroll where
  | scrollNone : HistoryScroll
  | scrollFile : HistoryScrollFile → HistoryScroll
  | scrollCompact : CompactHistoryScroll → HistoryScroll
deriving DecidableEq

/-- Virtual getLines(). -/
def HistoryScroll.getLines : HistoryScroll → Nat
  | .scrollNone => 0
  | .scrollFile f => f.getLines
  | .scrollCompact c => c.getLines

/-- Virtual getLineLen(). -/
def HistoryScroll.getLineLen : HistoryScroll → Nat → Nat
  | .scrollNone, _ => 0
  | .scrollFile f, lineno => f.getLineLen lineno
  | .scrollCompact c, lineno => c.getLineLen lineno

/-- Virtual getCells().  HistoryScrollNone::getCells leaves the output
buffer untouched; modelled as the empty read. -/
def HistoryScroll.getCells : HistoryScroll → Nat → Nat → Nat → List Character
  | .scrollNone, _, _, _ => []
  | .scrollFile f, lineno, colno, count => f.getCells lineno colno count
  | .scrollCompact c, lineno, colno, count => c.getCells lineno colno count

/-- Virtual isWrappedLine(). -/
def HistoryScroll.isWrappedLine : HistoryScroll → Nat → Bool
  | .scrollNone, _ => false
  | .scrollFile f, lineno => f.isWrappedLine lineno
  | .scrollCompact c, lineno => c.isWrappedLine lineno

/-- Virtual hasScroll(). -/
def HistoryScroll.hasScroll : HistoryScroll → Bool
  | .scrollNone => false
  | _ => true

/-- Result of a HistoryType::scroll call: the Bool records whether the
returned store is the old object itself (the early return branches), as
opposed to a freshly constructed replacement after deleting old. -/
def ScrollResult := Bool × HistoryScroll

/-- HistoryTypeNone::scroll (History.cpp 568-572): delete old
unconditionally and return a freshly constructed HistoryScrollNone. -/
def historyTypeNoneScroll (_old : Option HistoryScroll) : Bool × HistoryScroll :=
  (false, HistoryScroll.scrollNone)

/-- HistoryTypeFile::scroll (History.cpp 591-617).  The early-return test
is dynamic_cast to HistoryFile — the raw byte-log class, which no
HistoryScroll subclass derives from — so the cast yields null for every
store and the branch never fires; the function always builds a fresh
HistoryScrollFile and replays every line of old into it.  (The source
copies through a stack buffer or, for lines longer than LINE_SIZE, a heap
scratch buffer; both branches transfer the same cells and are modelled
uniformly.) -/
def historyTypeFileScroll : Option HistoryScroll → Bool × HistoryScroll
  | Option.none => (false, .scrollFile emptyScrollFile)
  | Option.some old =>
    (false, .scrollFile ((List.range old.getLines).foldl
      (fun s i =>
        (s.addCells (old.getCells i 0 (old.getLineLen i))).addLine (old.isWrappedLine i))
      emptyScrollFile))

/-- CompactHistoryType::scroll (History.cpp 641-652): if old is itself a
CompactHistoryScroll, setMaxNbLines on it and return it; otherwise delete
old (if any) and return a freshly constructed empty CompactHistoryScroll
of the requested capacity. -/
def compactHistoryTypeScroll (nbLines : Nat) : Option HistoryScroll → Bool × HistoryScroll
  | Option.some (HistoryScroll.scrollCompact s) =>
    (true, .scrollCompact (s.setMaxNbLines nbLines))
  | Option.some _ => (false, .scrollCompact (compactNew nbLines))
  | Option.none => (false, .scrollCompact (compactNew nbLines))

/-! ### View window (ScreenWindow.cpp)

The Screen collaborator is opaque: its observable state is a record of
the values its getters return plus two response functions (getImage and
getLineProperties as functions of the requested line range) and a minimal
selection record mutated by the selection calls.  Every ScreenWindow
mutator returns the new window state together with the list of signals it
emits, in emission order. -/

/-- The Screen collaborator as seen through the capability set the window
uses.  Integer getters are Int, matching the signed ints of the source. -/
structure Screen where
  columns : Int
  lines : Int
  histLines : Int
  scrolledLines : Int
  droppedLines : Int
  oldTotalLines : Int
  isResize : Bool
  hasRepl : Bool
  lineProps : Int → Int → List LineProperty
  imageFn : Int → Int → List Character
  selStartColumn : Int
  selStartLine : Int
  selColumnMode : Bool
  selEndColumn : Int
  selEndLine : Int
  selTrim : Bool
  selActive : Bool

inductive Signal where
  | screenAboutToChange
  | outputChanged
  | scrolled (currentLine : Int)
  | selectionChanged
  | currentResultLineChanged
deriving DecidableEq

/-- ScreenWindow state.  Field names follow the source members. -/
structure ScreenWindow where
  screen : Screen
  _windowBuffer : Option (List Character)
  _windowBufferSize : Int
  _bufferNeedsUpdate : Bool
  _windowLines : Int
  _currentLine : Int
  _currentResultLine : Int
  _trackOutput : Bool
  _scrollCount : Int

/-- Qt qBound(min, val, max) = qMax(min, qMin(max, val)). -/
def qBound (lo x hi : Int) : Int := max lo (min hi x)

def ScreenWindow.windowLines (w : ScreenWindow) : Int := w._windowLines

def ScreenWindow.windowColumns (w : ScreenWindow) : Int := w.screen.columns

/-- lineCount() = screen histLines + screen lines (the virtual coordinate
space height). -/
def ScreenWindow.lineCount (w : ScreenWindow) : Int :=
  w.screen.histLines + w.screen.lines

/-- currentLine() (ScreenWindow.cpp 210-213): the raw anchor clamped to
[0, max(0, lineCount - windowLines)]. -/
def ScreenWindow.currentLine (w : ScreenWindow) : Int :=
  qBound 0 w._currentLine (max 0 (w.lineCount - w.windowLines))

/-- endWindowLine() = min(currentLine + windowLines - 1, lineCount - 1). -/
def ScreenWindow.endWindowLine (w : ScreenWindow) : Int :=
  min (w.currentLine + w.windowLines - 1) (w.lineCount - 1)

/-- QVector::resize(n): truncate to n entries, or pad with
default-constructed entries up to n. -/
def qvResize {α : Type} [Inhabited α] (l : List α) (n : Nat) : List α :=
  l.take n ++ List.replicate (n - l.length) default

/-- getLineProperties (ScreenWindow.cpp 107-116): ask the Screen for the
properties of [currentLine, endWindowLine] and resize the answer to
exactly windowLines entries when it differs. -/
def ScreenWindow.getLineProperties (w : ScreenWindow) : List LineProperty :=
  let result := w.screen.lineProps w.currentLine w.endWindowLine
  if (result.length : Int) ≠ w.windowLines then qvResize result w._windowLines.toNat
  else result

/-- fillUnusedArea (ScreenWindow.cpp 77-93): when the window end passes
the screen end, overwrite the trailing unusedLines * windowColumns cells
of the buffer with the default blank cell. -/
def ScreenWindow.fillUnusedArea (w : ScreenWindow) (buf : List Character) :
    List Character :=
  let screenEndLine := w.screen.histLines + w.screen.lines - 1
  let windowEndLine := w.currentLine + w.windowLines - 1
  let unusedLines := windowEndLine - screenEndLine
  if unusedLines ≤ 0 then buf
  else
    let charsToFill := unusedLines * w.windowColumns
    buf.take (w._windowBufferSize - charsToFill).toNat
      ++ List.replicate charsToFill.toNat defaultChar

/-- getImage (ScreenWindow.cpp 51-75): reallocate (and mark dirty) when
the buffer is missing or its size changed; early-return the cache when
clean; otherwise fill from the Screen, blank the unused tail, and clear
the dirty flag. -/
def ScreenWindow.getImage (w : ScreenWindow) : ScreenWindow × List Character :=
  let size := w.windowLines * w.windowColumns
  let w1 :=
    if w._windowBuffer.isNone ∨ w._windowBufferSize ≠ size then
      { w with
        _windowBufferSize := size
        _windowBuffer := Option.some (List.replicate size.toNat defaultChar)
        _bufferNeedsUpdate := true }
    else w
  if w1._bufferNeedsUpdate = false then (w1, w1._windowBuffer.getD [])
  else
    let buf := w1.fillUnusedArea (w1.screen.imageFn w1.currentLine w1.endWindowLine)
    ({ w1 with _windowBuffer := Option.some buf, _bufferNeedsUpdate := false }, buf)

/-- setSelectionStart (ScreenWindow.cpp 135-141): translate to global
coordinates by adding currentLine(), mark dirty, emit selectionChanged. -/
def ScreenWindow.setSelectionStart (w : ScreenWindow) (column line : Int)
    (columnMode : Bool) : ScreenWindow × List Signal :=
  ({ w with
      screen :=
        { w.screen with
          selStartColumn := column
          selStartLine := line + w.currentLine
          selColumnMode := columnMode
          selActive := true }
      _bufferNeedsUpdate := true },
    [Signal.selectionChanged])

/-- setSelectionEnd (ScreenWindow.cpp 143-149). -/
def ScreenWindow.setSelectionEnd (w : ScreenWindow) (column line : Int)
    (trimTrailingWhitespace : Bool) : ScreenWindow × List Signal :=
  ({ w with
      screen :=
        { w.screen with
          selEndColumn := column
          selEndLine := line + w.currentLine
          selTrim := trimTrailingWhitespace
          selActive := true }
      _bufferNeedsUpdate := true },
    [Signal.selectionChanged])

/-- clearSelection (ScreenWindow.cpp 167-172): clear the Screen selection
and emit selectionChanged.  The source does not touch
_bufferNeedsUpdate here. -/
def ScreenWindow.clearSelection (w : ScreenWindow) : ScreenWindow × List Signal :=
  ({ w with screen := { w.screen with selActive := false } },
    [Signal.selectionChanged])

/-- setSelectionByLineRange (ScreenWindow.cpp 151-160): clearSelection,
then set start (0, start) and end (windowColumns, end) directly in global
coordinates on the Screen, mark dirty, emit selectionChanged. -/
def ScreenWindow.setSelectionByLineRange (w : ScreenWindow) (start «end» : Int) :
    ScreenWindow × List Signal :=
  let c := w.clearSelection
  let w1 := c.1
  ({ w1 with
      screen :=
        { w1.screen with
          selStartColumn := 0
          selStartLine := start
          selColumnMode := false
          selEndColumn := w1.windowColumns
          selEndLine := «end»
          selTrim := false
          selActive := true }
      _bufferNeedsUpdate := true },
    c.2 ++ [Signal.selectionChanged])

/-- scrollTo (ScreenWindow.cpp 272-287): clamp to
[0, lineCount - windowLines], accumulate the signed delta into
_scrollCount, mark dirty, emit scrolled(currentLine). -/
def ScreenWindow.scrollTo (w : ScreenWindow) (line : Int) : ScreenWindow × List Signal :=
  let maxCurrentLineNumber := w.lineCount - w.windowLines
  let line := qBound 0 line maxCurrentLineNumber
  let delta := line - w._currentLine
  ({ w with
      _currentLine := line
      _scrollCount := w._scrollCount + delta
      _bufferNeedsUpdate := true },
    [Signal.scrolled line])

def ScreenWindow.setTrackOutput (w : ScreenWindow) (trackOutput : Bool) :
    ScreenWindow × List Signal :=
  ({ w with _trackOutput := trackOutput }, [])

def ScreenWindow.resetScrollCount (w : ScreenWindow) : ScreenWindow × List Signal :=
  ({ w with _scrollCount := 0 }, [])

def ScreenWindow.setCurrentResultLine (w : ScreenWindow) (line : Int) :
    ScreenWindow × List Signal :=
  if w._currentResultLine = line then (w, [])
  else ({ w with _currentResultLine := line }, [Signal.currentResultLineChanged])

def ScreenWindow.setWindowLines (w : ScreenWindow) (lines : Int) :
    ScreenWindow × List Signal :=
  ({ w with _windowLines := lines }, [])

/-- updateCurrentLine (ScreenWindow.cpp 319-328): on a pending resize,
shift a positive anchor by the total-line delta and clamp.  Neither the
dirty flag nor any signal is touched. -/
def ScreenWindow.updateCurrentLine (w : ScreenWindow) : ScreenWindow × List Signal :=
  if w.screen.isResize = false then (w, [])
  else
    let w1 :=
      if w._currentLine > 0 then
        { w with _currentLine := w._currentLine - (w.screen.oldTotalLines - w.lineCount) }
      else w
    ({ w1 with _currentLine := qBound 0 w1._currentLine (w1.lineCount - w1.windowLines) },
      [])

/-- notifyOutputChanged (ScreenWindow.cpp 330-353). -/
def ScreenWindow.notifyOutputChanged (w : ScreenWindow) : ScreenWindow × List Signal :=
  let w1 :=
    if w._trackOutput then
      { w with
        _scrollCount := w._scrollCount - w.screen.scrolledLines
        _currentLine := max 0 (w.screen.histLines - (w.windowLines - w.screen.lines)) }
    else
      let cl := max 0 (w._currentLine - w.screen.droppedLines)
      { w with _currentLine := min cl w.screen.histLines }
  ({ w1 with _bufferNeedsUpdate := true }, [Signal.outputChanged])

/-! ### Concrete sample states used by witnesses and counterexamples -/

/-- A concrete Screen: 80 columns, 24 live lines, 40 history lines,
nothing pending, empty responses. -/
def sampleScreen : Screen :=
  { columns := 80
    lines := 24
    histLines := 40
    scrolledLines := 0
    droppedLines := 0
    oldTotalLines := 0
    isResize := false
    hasRepl := false
    lineProps := fun _ _ => []
    imageFn := fun _ _ => []
    selStartColumn := 0
    selStartLine := 0
    selColumnMode := false
    selEndColumn := 0
    selEndLine := 0
    selTrim := false
    selActive := false }

/-- A window over sampleScreen whose image cache is clean. -/
def sampleWindowClean : ScreenWindow :=
  { screen := sampleScreen
    _windowBuffer := Option.none
    _windowBufferSize := 0
    _bufferNeedsUpdate := false
    _windowLines := 10
    _currentLine := 0
    _currentResultLine := -1
    _trackOutput := true
    _scrollCount := 0 }

/-- A single concrete cell. -/
def sampleCell : Character := ⟨97, 1, 2, 3⟩

/-- A file-backed store holding one committed wrapped line of one cell. -/
def sampleFileStore : HistoryScrollFile := runFile [([sampleCell], true)]

/-- The write sequence of spec scenario 2: a wrapped three-cell line, then
an unwrapped three-cell line. -/
def sampleWrites : List (List Character × Bool) :=
  [([⟨102, 0, 0, 0⟩, ⟨111, 0, 0, 0⟩, ⟨111, 0, 0, 0⟩], true),
   ([⟨98, 0, 0, 0⟩, ⟨97, 0, 0, 0⟩, ⟨114, 0, 0, 0⟩], false)]

/-- Three writes into a Compact store of capacity 1. -/
def sampleCompactWrites : List (List Character) := [[sampleCell], [], [sampleCell]]

/-! ## Helper lemmas -/

/-- The setMaxNbLines eviction loop drops exactly the oldest
length - cap lines. -/
theorem dropToCap_eq_drop (cap : Nat) (l : List CompactHistoryLine) :
    dropToCap cap l = l.drop (l.length - cap) := by
  induction l with
  | nil => simp [dropToCap]
  | cons x t ih =>
    by_cases h : t.length + 1 > cap
    · have h2 : (x :: t).length - cap = (t.length - cap) + 1 := by
        simp only [List.length_cons]; omega
      rw [h2]
      simp [dropToCap, h, ih]
    · have h2 : (x :: t).length - cap = 0 := by
        simp only [List.length_cons]; omega
      rw [h2]
      simp [dropToCap, h]

/-- In-range getD on a mapped list. -/
theorem getD_map_of_lt {α β : Type} (f : α → β) (l : List α) (i : Nat) (d : β) (d0 : α)
    (h : i < l.length) : (l.map f).getD i d = f (l.getD i d0) := by
  rw [List.getD_eq_getElem _ _ (by simpa using h), List.getD_eq_getElem _ _ h,
    List.getElem_map]

/-- getD at the position right after a prefix. -/
theorem getD_append_length {α : Type} (l : List α) (x d : α) :
    (l ++ [x]).getD l.length d = x := by
  rw [List.getD_eq_getElem _ _ (by simp)]
  simp

/-- The observed currentLine is within bounds in every window state. -/
theorem currentLine_bounds (w : ScreenWindow) :
    0 ≤ w.currentLine ∧ w.currentLine ≤ max 0 (w.lineCount - w.windowLines) := by
  unfold ScreenWindow.currentLine qBound
  omega

/-! ## Claim C7 -/

/-- C7 (confirmed): after every view-window operation — scrollTo with an
arbitrary argument, notifyOutputChanged in either tracking mode, and
updateCurrentLine after a resize — the observed currentLine satisfies
0 <= currentLine <= max(0, totalLines - windowLines).  The first conjunct
states the invariant for every window state whatsoever (the currentLine
accessor clamps), so it holds after any operation; the remaining
conjuncts instantiate it after each operation the claim names. -/
theorem claim_C7_theorem :
    (∀ w : ScreenWindow,
        0 ≤ w.currentLine ∧ w.currentLine ≤ max 0 (w.lineCount - w.windowLines))
    ∧ (∀ (w : ScreenWindow) (x : Int),
        0 ≤ (w.scrollTo x).1.currentLine ∧
          (w.scrollTo x).1.currentLine
            ≤ max 0 ((w.scrollTo x).1.lineCount - (w.scrollTo x).1.windowLines))
    ∧ (∀ w : ScreenWindow,
        0 ≤ w.notifyOutputChanged.1.currentLine ∧
          w.notifyOutputChanged.1.currentLine
            ≤ max 0 (w.notifyOutputChanged.1.lineCount - w.notifyOutputChanged.1.windowLines))
    ∧ (∀ w : ScreenWindow,
        0 ≤ w.updateCurrentLine.1.currentLine ∧
          w.updateCurrentLine.1.currentLine
            ≤ max 0 (w.updateCurrentLine.1.lineCount - w.updateCurrentLine.1.windowLines)) :=
  ⟨fun w => currentLine_bounds w,
   fun w x => currentLine_bounds (w.scrollTo x).1,
   fun w => currentLine_bounds w.notifyOutputChanged.1,
   fun w => currentLine_bounds w.updateCurrentLine.1⟩

/-! ## Claim C8 -/

/-- C8 (confirmed): while trackOutput is set, after notifyOutputChanged
the observed currentLine equals
max(0, histLines - (windowLines - screenLines)), for all values of the
three quantities: the assigned anchor coincides with the accessor's upper
clamp max(0, histLines + screenLines - windowLines), so the clamp leaves
it unchanged. -/
theorem claim_C8_theorem (w : ScreenWindow) (h : w._trackOutput = true) :
    w.notifyOutputChanged.1.currentLine
      = max 0 (w.screen.histLines - (w.windowLines - w.screen.lines)) := by
  unfold ScreenWindow.notifyOutputChanged
  simp only [h, if_true, ScreenWindow.currentLine, ScreenWindow.lineCount,
    ScreenWindow.windowLines, qBound]
  omega

theorem claim_C8_witness :
    sampleWindowClean._trackOutput = true ∧
      sampleWindowClean.notifyOutputChanged.1.currentLine
        = max 0 (sampleWindowClean.screen.histLines
            - (sampleWindowClean.windowLines - sampleWindowClean.screen.lines)) :=
  ⟨rfl, claim_C8_theorem sampleWindowClean rfl⟩

/-! ## Claim C10 -/

/-- C10 (confirmed): getLineProperties always returns exactly windowLines
entries: the Screen's answer for the visible range is truncated to
windowLines entries when longer and padded with default-constructed
entries when shorter (both captured by the take ++ replicate form of
QVector::resize).  The hypothesis is the class invariant windowLines > 0
asserted by setWindowLines. -/
theorem claim_C10_theorem (w : ScreenWindow) (h : 0 < w._windowLines) :
    w.getLineProperties.length = w._windowLines.toNat ∧
      w.getLineProperties
        = (w.screen.lineProps w.currentLine w.endWindowLine).take w._windowLines.toNat
          ++ List.replicate
              (w._windowLines.toNat
                - (w.screen.lineProps w.currentLine w.endWindowLine).length)
              default := by
  unfold ScreenWindow.getLineProperties ScreenWindow.windowLines
  dsimp only
  by_cases hc : ((w.screen.lineProps w.currentLine w.endWindowLine).length : Int)
      ≠ w._windowLines
  · rw [if_pos hc]
    unfold qvResize
    refine ⟨?_, rfl⟩
    simp only [List.length_append, List.length_take, List.length_replicate]
    omega
  · rw [if_neg hc]
    push_neg at hc
    have hlen : (w.screen.lineProps w.currentLine w.endWindowLine).length
        = w._windowLines.toNat := by omega
    refine ⟨hlen, ?_⟩
    rw [← hlen, List.take_length, Nat.sub_self]
    simp

theorem claim_C10_witness :
    (0 : Int) < sampleWindowClean._windowLines ∧
      sampleWindowClean.getLineProperties.length
        = sampleWindowClean._windowLines.toNat :=
  ⟨by decide, (claim_C10_theorem sampleWindowClean (by decide)).1⟩

/-! ## Claim C3 -/

/-- C3 counterexample: on a window with a clean image cache,
clearSelection emits selectionChanged but leaves the cache clean —
contradicting the claim that every selection mutation marks the cached
image dirty. -/
theorem claim_C3_counterexample :
    sampleWindowClean.clearSelection.1._bufferNeedsUpdate = false ∧
      sampleWindowClean.clearSelection.2 = [Signal.selectionChanged] :=
  ⟨rfl, rfl⟩

/-- C3 (corrected): setSelectionStart, setSelectionEnd and
setSelectionByLineRange mark the cached image dirty and emit
selectionChanged; clearSelection emits selectionChanged but leaves the
dirty flag unchanged.  Once dirty, the cache stays dirty across every
other window operation — scrolling, output notification, resize handling,
tracking and search-cursor updates — and only getImage clears the flag
(the remaining conjuncts show each operation either sets the flag,
leaves it unchanged, or, for getImage alone, ends with it clear). -/
theorem claim_C3_theorem :
    (∀ (w : ScreenWindow) (c l : Int) (m : Bool),
        (w.setSelectionStart c l m).1._bufferNeedsUpdate = true ∧
          Signal.selectionChanged ∈ (w.setSelectionStart c l m).2)
    ∧ (∀ (w : ScreenWindow) (c l : Int) (t : Bool),
        (w.setSelectionEnd c l t).1._bufferNeedsUpdate = true ∧
          Signal.selectionChanged ∈ (w.setSelectionEnd c l t).2)
    ∧ (∀ (w : ScreenWindow) (s e : Int),
        (w.setSelectionByLineRange s e).1._bufferNeedsUpdate = true ∧
          Signal.selectionChanged ∈ (w.setSelectionByLineRange s e).2)
    ∧ (∀ w : ScreenWindow,
        w.clearSelection.2 = [Signal.selectionChanged] ∧
          w.clearSelection.1._bufferNeedsUpdate = w._bufferNeedsUpdate)
    ∧ (∀ (w : ScreenWindow) (x : Int), (w.scrollTo x).1._bufferNeedsUpdate = true)
    ∧ (∀ w : ScreenWindow, w.notifyOutputChanged.1._bufferNeedsUpdate = true)
    ∧ (∀ w : ScreenWindow,
        w.updateCurrentLine.1._bufferNeedsUpdate = w._bufferNeedsUpdate)
    ∧ (∀ (w : ScreenWindow) (b : Bool),
        (w.setTrackOutput b).1._bufferNeedsUpdate = w._bufferNeedsUpdate)
    ∧ (∀ w : ScreenWindow,
        w.resetScrollCount.1._bufferNeedsUpdate = w._bufferNeedsUpdate)
    ∧ (∀ (w : ScreenWindow) (l : Int),
        (w.setCurrentResultLine l).1._bufferNeedsUpdate = w._bufferNeedsUpdate)
    ∧ (∀ (w : ScreenWindow) (l : Int),
        (w.setWindowLines l).1._bufferNeedsUpdate = w._bufferNeedsUpdate)
    ∧ (∀ w : ScreenWindow, w.getImage.1._bufferNeedsUpdate = false) := by
  refine ⟨fun w c l m => ⟨rfl, by simp [ScreenWindow.setSelectionStart]⟩,
    fun w c l t => ⟨rfl, by simp [ScreenWindow.setSelectionEnd]⟩,
    fun w s e => ⟨rfl, by simp [ScreenWindow.setSelectionByLineRange]⟩,
    fun w => ⟨rfl, rfl⟩,
    fun w x => rfl,
    fun w => ?_,
    fun w => ?_,
    fun w b => rfl,
    fun w => rfl,
    fun w l => ?_,
    fun w l => rfl,
    fun w => ?_⟩
  · unfold ScreenWindow.notifyOutputChanged
    split <;> rfl
  · unfold ScreenWindow.updateCurrentLine
    split
    · rfl
    · split <;> rfl
  · unfold ScreenWindow.setCurrentResultLine
    split <;> rfl
  · unfold ScreenWindow.getImage
    dsimp only
    split <;> split <;> simp_all

/-! ## Claim C4 -/

/-- C4 counterexample: reconfiguring to the None kind when the old store
is already a HistoryScrollNone still destroys it and constructs a fresh
store — the first component false records that the early in-place return
was not taken — contradicting the claim for the None kind. -/
theorem claim_C4_counterexample :
    historyTypeNoneScroll (Option.some HistoryScroll.scrollNone)
      = (false, HistoryScroll.scrollNone) := rfl

/-- C4 (corrected): only the Compact kind reconfigures in place: when old
is a CompactHistoryScroll, scroll applies setMaxNbLines and returns old
itself (first component true).  HistoryTypeNone::scroll always deletes
old and returns a fresh HistoryScrollNone, and HistoryTypeFile::scroll
always constructs a replacement (its same-kind test dynamic_casts old
against the unrelated HistoryFile class and never succeeds), replaying
the old content into the fresh store. -/
theorem claim_C4_theorem :
    (∀ old : Option HistoryScroll,
        historyTypeNoneScroll old = (false, HistoryScroll.scrollNone))
    ∧ (∀ old : Option HistoryScroll, (historyTypeFileScroll old).1 = false)
    ∧ (∀ (n : Nat) (s : CompactHistoryScroll),
        compactHistoryTypeScroll n (Option.some (HistoryScroll.scrollCompact s))
          = (true, HistoryScroll.scrollCompact (s.setMaxNbLines n)))
    ∧ (∀ (n : Nat) (f : HistoryScrollFile),
        compactHistoryTypeScroll n (Option.some (HistoryScroll.scrollFile f))
          = (false, HistoryScroll.scrollCompact (compactNew n)))
    ∧ (∀ n : Nat,
        compactHistoryTypeScroll n (Option.some HistoryScroll.scrollNone)
          = (false, HistoryScroll.scrollCompact (compactNew n))) := by
  refine ⟨fun old => rfl, fun old => ?_, fun n s => rfl, fun n f => rfl, fun n => rfl⟩
  cases old <;> rfl

/-! ## Claim C2 -/

/-- C2 counterexample: migrating a file-backed store holding one line to
Compact(5) produces an empty store, not one holding the last
min(5, 1) = 1 line: CompactHistoryType::scroll deletes a non-Compact old
store without copying anything. -/
theorem claim_C2_counterexample :
    ((compactHistoryTypeScroll 5
        (Option.some (HistoryScroll.scrollFile sampleFileStore))).2).getLines = 0
    ∧ min 5 (HistoryScroll.scrollFile sampleFileStore).getLines = 1 := by
  constructor <;> rfl

/-- C2 (corrected): reconfiguration to Compact(n) preserves the tail only
when the old store is itself Compact: then the old store is kept, its
oldest lines beyond n evicted, so its lines become the last
min(n, old.getLines()) old lines in order (each CompressedLine kept
wholesale, wrapped flag included).  For any non-Compact old store — and
when there is no old store — the old content is discarded and the result
is a fresh empty Compact store. -/
theorem claim_C2_theorem :
    (∀ (n : Nat) (s : CompactHistoryScroll),
        (compactHistoryTypeScroll n
              (Option.some (HistoryScroll.scrollCompact s))).2
            = HistoryScroll.scrollCompact (s.setMaxNbLines n)
          ∧ (s.setMaxNbLines n).lines = s.lines.drop (s.lines.length - n)
          ∧ (s.setMaxNbLines n).getLines = min n s.getLines)
    ∧ (∀ (n : Nat) (f : HistoryScrollFile),
        (compactHistoryTypeScroll n (Option.some (HistoryScroll.scrollFile f))).2
            = HistoryScroll.scrollCompact (compactNew n)
          ∧ (compactNew n).getLines = 0)
    ∧ (∀ n : Nat,
        (compactHistoryTypeScroll n (Option.some HistoryScroll.scrollNone)).2
          = HistoryScroll.scrollCompact (compactNew n))
    ∧ (∀ n : Nat,
        (compactHistoryTypeScroll n Option.none).2
          = HistoryScroll.scrollCompact (compactNew n)) := by
  refine ⟨fun n s => ⟨rfl, ?_, ?_⟩, fun n f => ⟨rfl, ?_⟩, fun n => rfl, fun n => rfl⟩
  · exact dropToCap_eq_drop n s.lines
  · simp only [CompactHistoryScroll.getLines, CompactHistoryScroll.setMaxNbLines,
      dropToCap_eq_drop, List.length_drop]
    omega
  · rfl

/-! ## Claim C1 -/

/-- addCells never changes the stored cap. -/
theorem foldl_addCells_maxLineCount (css : List (List Character))
    (s0 : CompactHistoryScroll) :
    (css.foldl (fun s cs => s.addCells cs) s0)._maxLineCount = s0._maxLineCount := by
  induction css generalizing s0 with
  | nil => rfl
  | cons c t ih =>
    rw [List.foldl_cons, ih]
    rfl

/-- Characterization of a write-only run against a Compact store of cap
m: the surviving lines are the last min(k, m + 1) committed lines, where
k is the number of addCells calls — the eviction in addCellsVector tests
the count before appending, so the store steadies at m + 1 lines. -/
theorem foldl_addCells_lines (m : Nat) (css : List (List Character)) :
    (css.foldl (fun s cs => s.addCells cs) (compactNew m)).lines
      = (css.map mkCompactHistoryLine).drop (css.length - (m + 1)) := by
  induction css using List.reverseRecOn with
  | nil => simp [compactNew, CompactHistoryScroll.setMaxNbLines, dropToCap]
  | append_singleton css c ih =>
    rw [List.foldl_append, List.foldl_cons, List.foldl_nil]
    have hmax := foldl_addCells_maxLineCount css (compactNew m)
    have hmax2 : (compactNew m)._maxLineCount = m := rfl
    rw [hmax2] at hmax
    set s := css.foldl (fun s cs => s.addCells cs) (compactNew m) with hs
    have hlines :
        (s.addCells c).lines
          = (if s.lines.length > s._maxLineCount then s.lines.drop 1 else s.lines)
            ++ [mkCompactHistoryLine c] := rfl
    rw [hlines, hmax, ih]
    set M := css.map mkCompactHistoryLine with hM
    have hMlen : M.length = css.length := by simp [hM]
    by_cases hk : css.length ≤ m
    · have h0 : css.length - (m + 1) = 0 := by omega
      have hnot : ¬ ((M.drop (css.length - (m + 1))).length > m) := by
        rw [List.length_drop]
        omega
      rw [if_neg hnot, h0, List.drop_zero]
      have h1 : (css ++ [c]).length - (m + 1) = 0 := by
        simp only [List.length_append, List.length_cons, List.length_nil]
        omega
      rw [List.map_append, h1, List.drop_zero]
      rfl
    · have hgt : (M.drop (css.length - (m + 1))).length > m := by
        rw [List.length_drop]
        omega
      rw [if_pos hgt, List.drop_drop]
      have h1 : css.length - (m + 1) + 1 = css.length - m := by omega
      have h2 : (css ++ [c]).length - (m + 1) = css.length - m := by
        simp only [List.length_append, List.length_cons, List.length_nil]
        omega
      rw [h1, List.map_append, h2,
        List.drop_append_of_le_length (by omega : css.length - m ≤ M.length)]
      rfl

/-- C1 counterexample: with maxLineCount = 1, two addCells calls leave
getLines() = 2, not 1: addCellsVector evicts only when the count already
exceeds the cap before appending, so the store holds up to
maxLineCount + 1 lines. -/
theorem claim_C1_counterexample :
    (((compactNew 1).addCells [sampleCell]).addCells []).getLines = 2 ∧
      (((compactNew 1).addCells [sampleCell]).addCells []).getLines ≠ 1 := by
  constructor <;> decide

/-- C1 (corrected): for the Compact store with maximum line count m,
after any k addCells calls (no intervening setMaxNbLines) the surviving
lines are the last min(k, m + 1) committed lines in order; in particular
getLines() <= m + 1 always holds, and after k > m calls
getLines() = m + 1 and the lines are the last m + 1 writes in order
(not m, as claimed: the eviction test runs before the append). -/
theorem claim_C1_theorem (m : Nat) (css : List (List Character)) :
    (css.foldl (fun s cs => s.addCells cs) (compactNew m)).lines
        = (css.map mkCompactHistoryLine).drop (css.length - (m + 1))
      ∧ (css.foldl (fun s cs => s.addCells cs) (compactNew m)).getLines ≤ m + 1
      ∧ (css.length > m →
          (css.foldl (fun s cs => s.addCells cs) (compactNew m)).getLines = m + 1) := by
  refine ⟨foldl_addCells_lines m css, ?_, fun h => ?_⟩
  · rw [CompactHistoryScroll.getLines, foldl_addCells_lines m css, List.length_drop]
    simp only [List.length_map]
    omega
  · rw [CompactHistoryScroll.getLines, foldl_addCells_lines m css, List.length_drop]
    simp only [List.length_map]
    omega

theorem claim_C1_witness :
    sampleCompactWrites.length > 1 ∧
      (sampleCompactWrites.foldl (fun s cs => s.addCells cs) (compactNew 1)).getLines
        = 2 :=
  ⟨by decide, (claim_C1_theorem 1 sampleCompactWrites).2.2 (by decide)⟩

/-! ## Claim C5 -/

/-- Characterization of a run of paired writes from an arbitrary start
state: cells is the concatenation of the committed lines, index records
the running end offsets, lineflags the wrapped flags. -/
theorem runFile_foldl (ws : List (List Character × Bool)) (s : HistoryScrollFile) :
    ws.foldl (fun s cw => (s.addCells cw.1).addLine cw.2) s
      = ⟨s.cells ++ (ws.map (·.1)).flatten,
         s.index ++ idxFrom (sizeofCharacter * s.cells.length) ws,
         s.lineflags ++ ws.map (·.2)⟩ := by
  induction ws generalizing s with
  | nil => simp [idxFrom]
  | cons cw t ih =>
    rw [List.foldl_cons, ih]
    simp only [HistoryScrollFile.addCells, HistoryScrollFile.addLine, List.map_cons,
      List.flatten_cons, idxFrom, List.length_append, Nat.mul_add]
    simp [HistoryScrollFile.mk.injEq, List.append_assoc]

/-- The index file holds one record per committed line. -/
theorem idxFrom_length (ws : List (List Character × Bool)) (base : Nat) :
    (idxFrom base ws).length = ws.length := by
  induction ws generalizing base with
  | nil => rfl
  | cons cw t ih => simp [idxFrom, ih]

theorem sumLen_cons_succ (cw : List Character × Bool)
    (t : List (List Character × Bool)) (j : Nat) :
    sumLen (cw :: t) (j + 1) = cw.1.length + sumLen t j := by
  simp [sumLen, List.take_succ_cons]

/-- The i-th index record is the total byte length of the first i + 1
committed lines, shifted by the starting byte length. -/
theorem idxFrom_getD (ws : List (List Character × Bool)) (base i : Nat)
    (h : i < ws.length) :
    (idxFrom base ws).getD i 0 = base + sizeofCharacter * sumLen ws (i + 1) := by
  induction ws generalizing base i with
  | nil => simp at h
  | cons cw t ih =>
    cases i with
    | zero =>
      simp [idxFrom, sumLen_cons_succ, sumLen]
    | succ i =>
      simp only [idxFrom, List.getD_cons_succ]
      rw [ih (base + sizeofCharacter * cw.1.length) i (by simpa using h),
        sumLen_cons_succ, Nat.mul_add]
      omega

/-- Adding one more line to the counted prefix adds that line's length. -/
theorem sumLen_succ_getD (ws : List (List Character × Bool)) (j : Nat)
    (h : j < ws.length) :
    sumLen ws (j + 1) = sumLen ws j + (ws.getD j ([], false)).1.length := by
  induction ws generalizing j with
  | nil => simp at h
  | cons cw t ih =>
    cases j with
    | zero => simp [sumLen_cons_succ, sumLen]
    | succ j =>
      rw [sumLen_cons_succ, sumLen_cons_succ, ih j (by simpa using h),
        List.getD_cons_succ]
      omega

/-- The committed state of a whole run. -/
theorem runFile_eq (ws : List (List Character × Bool)) :
    runFile ws
      = ⟨(ws.map (·.1)).flatten, idxFrom 0 ws, ws.map (·.2)⟩ := by
  unfold runFile
  rw [runFile_foldl ws emptyScrollFile]
  rfl

theorem getLines_runFile (ws : List (List Character × Bool)) :
    (runFile ws).getLines = ws.length := by
  rw [runFile_eq]
  unfold HistoryScrollFile.getLines
  simp only
  rw [idxFrom_length, Nat.mul_div_cancel_left _ (by norm_num [sizeofInt])]

/-- The byte offset of the start of line L in a committed run. -/
theorem startOfLine_runFile (ws : List (List Character × Bool)) (L : Nat)
    (h : L ≤ ws.length) :
    (runFile ws).startOfLine L = sizeofCharacter * sumLen ws L := by
  unfold HistoryScrollFile.startOfLine
  by_cases h0 : L = 0
  · simp [h0, sumLen]
  · rw [if_neg h0, if_pos (by rw [getLines_runFile]; exact h)]
    have hL : L - 1 < ws.length := by omega
    conv_lhs => rw [runFile_eq]
    simp only
    rw [idxFrom_getD ws 0 (L - 1) hL, Nat.zero_add,
      show L - 1 + 1 = L by omega]

/-- C5 (confirmed): for the file-backed store, absent I/O failures, after
any sequence of paired addCells/addLine calls committing lines
(cells_i, wrapped_i), every line index L in range satisfies
getLineLen(L) = |cells_L|, isWrappedLine(L) = wrapped_L, and
getCells(L, 0, getLineLen(L)) returns cells_L bitwise. -/
theorem claim_C5_theorem (ws : List (List Character × Bool)) (L : Nat)
    (h : L < ws.length) :
    (runFile ws).getLineLen L = (ws.getD L ([], false)).1.length
    ∧ (runFile ws).isWrappedLine L = (ws.getD L ([], false)).2
    ∧ (runFile ws).getCells L 0 ((runFile ws).getLineLen L)
        = (ws.getD L ([], false)).1 := by
  have hK : 0 < sizeofCharacter := by norm_num [sizeofCharacter]
  have hlen : (runFile ws).getLineLen L = (ws.getD L ([], false)).1.length := by
    unfold HistoryScrollFile.getLineLen
    rw [startOfLine_runFile ws L (by omega), startOfLine_runFile ws (L + 1) (by omega),
      sumLen_succ_getD ws L h, Nat.mul_add, Nat.add_sub_cancel_left,
      Nat.mul_div_cancel_left _ hK]
  refine ⟨hlen, ?_, ?_⟩
  · unfold HistoryScrollFile.isWrappedLine
    rw [if_pos (by rw [getLines_runFile]; omega)]
    conv_lhs => rw [runFile_eq]
    simp only
    exact getD_map_of_lt (·.2) ws L false ([], false) h
  · rw [hlen]
    unfold HistoryScrollFile.getCells
    rw [startOfLine_runFile ws L (by omega), Nat.zero_mul, Nat.add_zero,
      Nat.mul_div_cancel_left _ hK]
    conv_lhs => rw [runFile_eq]
    simp only
    have hsum : sumLen ws L = (((ws.map (·.1)).map List.length).take L).sum := by
      unfold sumLen
      rw [List.map_map, ← List.map_take]
      rfl
    rw [hsum, List.drop_sum_flatten]
    have hML : L < (ws.map (·.1)).length := by simpa using h
    rw [List.drop_eq_getElem_cons hML, List.flatten_cons]
    have hget : (ws.map (·.1))[L] = (ws.getD L ([], false)).1 := by
      rw [List.getElem_map, ← List.getD_eq_getElem ws ([], false) h]
    rw [hget, List.take_left]

/-- Spec scenario 2 instantiating C5: write a wrapped three-cell line
then an unwrapped three-cell line; line 0 reads back with length 3,
wrapped flag true, and its original cells. -/
theorem claim_C5_witness :
    0 < sampleWrites.length ∧
      ((runFile sampleWrites).getLineLen 0 = (sampleWrites.getD 0 ([], false)).1.length
        ∧ (runFile sampleWrites).isWrappedLine 0 = (sampleWrites.getD 0 ([], false)).2
        ∧ (runFile sampleWrites).getCells 0 0 ((runFile sampleWrites).getLineLen 0)
            = (sampleWrites.getD 0 ([], false)).1) :=
  ⟨by decide, claim_C5_theorem sampleWrites 0 (by decide)⟩

/-! ## Claim C6 -/

/-- Format-only equality of cells coincides with equality of their
captured formats. -/
theorem equalsFormat_iff (x c : Character) :
    x.equalsFormat c = true ↔ x.format = c.format := by
  simp only [Character.equalsFormat, Character.format, CharacterFormat.mk.injEq,
    Bool.and_eq_true, beq_iff_eq]
  tauto

/-- Both constructor scans count the same format changes: the recorded
run list has exactly formatLength entries. -/
theorem formatRunsOf_length_eq_countFormats (line : List Character) :
    (formatRunsOf line).length = countFormats line := by
  cases line with
  | nil => rfl
  | cons c t =>
    simp only [formatRunsOf, countFormats, List.length_cons, Nat.add_comm 1]
    have : ∀ (t : List Character) (c : Character) (k : Nat),
        (runsFrom c k t).length = countFormatsFrom c t := by
      intro t
      induction t with
      | nil => intro c k; rfl
      | cons x t2 ih =>
        intro c k
        by_cases h : x.equalsFormat c
        · simp [runsFrom, countFormatsFrom, h, ih]
        · simp [runsFrom, countFormatsFrom, h, ih, Nat.add_comm 1]
    simp [this]

/-- The getCharacter while loop followed by the array lookup computes the
decoder: looking up the entry advanceRun steps past the head equals
decoding with the head format as the one in force. -/
theorem getD_advanceRun (rest : List (Nat × CharacterFormat))
    (hd d : Nat × CharacterFormat) (idx : Nat) :
    ((hd :: rest).getD (advanceRun rest idx) d).2 = decodeFmt hd.2 rest idx := by
  induction rest generalizing hd with
  | nil => rfl
  | cons p t ih =>
    obtain ⟨s, f⟩ := p
    by_cases h : s ≤ idx
    · simp only [advanceRun, decodeFmt, h, if_true, List.getD_cons_succ]
      exact ih (s, f)
    · simp [advanceRun, decodeFmt, h]

/-- Every startPos recorded by runsFrom c k is at least k, so decoding a
position below k yields the format in force. -/
theorem decodeFmt_below (t : List Character) (c : Character) (k j : Nat)
    (d : CharacterFormat) (h : j < k) :
    decodeFmt d (runsFrom c k t) j = d := by
  induction t generalizing c k d with
  | nil => rfl
  | cons x t2 ih =>
    by_cases hx : x.equalsFormat c
    · simp only [runsFrom, hx, if_true]
      exact ih c (k + 1) d (by omega)
    · simp only [runsFrom, hx, if_false, Bool.false_eq_true, decodeFmt]
      rw [if_neg (by omega)]

/-- Decoding the runs of the tail at absolute position k + idx recovers
the format of the cell at relative position idx: within a run every cell
shares the format of the cell that opened it. -/
theorem runsFrom_decode (t : List Character) (c : Character) (k idx : Nat)
    (h : idx < t.length) :
    decodeFmt c.format (runsFrom c k t) (k + idx) = (t.getD idx default).format := by
  induction t generalizing c k idx with
  | nil => simp at h
  | cons x t2 ih =>
    by_cases hx : x.equalsFormat c
    · have hf : x.format = c.format := (equalsFormat_iff x c).mp hx
      cases idx with
      | zero =>
        simp only [runsFrom, hx, if_true, Nat.add_zero, List.getD_cons_zero]
        rw [decodeFmt_below t2 c (k + 1) k c.format (by omega), hf]
      | succ i =>
        simp only [runsFrom, hx, if_true, List.getD_cons_succ]
        rw [show k + (i + 1) = (k + 1) + i by omega]
        exact ih c (k + 1) i (by simpa using h)
    · cases idx with
      | zero =>
        simp only [runsFrom, hx, if_false, Bool.false_eq_true, decodeFmt, Nat.add_zero,
          List.getD_cons_zero]
        rw [if_pos (by omega), decodeFmt_below t2 x (k + 1) k x.format (by omega)]
      | succ i =>
        simp only [runsFrom, hx, if_false, Bool.false_eq_true, decodeFmt,
          List.getD_cons_succ]
        rw [if_pos (by omega), show k + (i + 1) = (k + 1) + i by omega]
        exact ih x (k + 1) i (by simpa using h)

/-- Rebuilding a cell from its code point and its captured format gives
the cell back. -/
theorem character_of_format (a : Character) :
    ({ character := a.character
       rendition := a.format.rendition
       foregroundColor := a.format.fgColor
       backgroundColor := a.format.bgColor } : Character) = a := rfl

/-- getCharacter on a freshly constructed line recovers the original
cell at every in-range index. -/
theorem getCharacter_mk (cells : List Character) (idx : Nat)
    (h : idx < cells.length) :
    (mkCompactHistoryLine cells).getCharacter idx = cells.getD idx default := by
  cases cells with
  | nil => simp at h
  | cons c t =>
    unfold CompactHistoryLine.getCharacter mkCompactHistoryLine
    dsimp only
    rw [show formatRunsOf (c :: t) = (0, c.format) :: runsFrom c 1 t from rfl,
      List.drop_succ_cons, List.drop_zero, getD_advanceRun (runsFrom c 1 t) (0, c.format)]
    cases idx with
    | zero =>
      rw [decodeFmt_below t c 1 0 _ (by omega)]
      simp only [List.getD_cons_zero, List.map_cons]
      exact character_of_format c
    | succ i =>
      have hi : i < t.length := by simpa using h
      dsimp only
      have hd := runsFrom_decode t c 1 i hi
      rw [Nat.add_comm 1 i] at hd
      rw [hd]
      simp only [List.map_cons, List.getD_cons_succ]
      rw [getD_map_of_lt (·.character) t i 0 default hi]
      exact character_of_format (t.getD i default)

/-- getCharacters over the whole line is the identity. -/
theorem getCharacters_mk (cells : List Character) :
    (mkCompactHistoryLine cells).getCharacters cells.length 0 = cells := by
  apply List.ext_getElem
  · simp [CompactHistoryLine.getCharacters]
  · intro i h1 h2
    simp only [CompactHistoryLine.getCharacters, List.getElem_map, List.getElem_range,
      Nat.zero_add]
    rw [getCharacter_mk cells i h2, List.getD_eq_getElem cells default h2]

/-- C6 (confirmed): committing any raw cell sequence to the Compact store
and reading the committed line back with getCells(L, 0, len) returns the
original cells: the run-length format encoding built by the
CompactHistoryLine constructor followed by per-cell decoding in
getCharacter is the identity, for arbitrary per-cell format patterns. -/
theorem claim_C6_theorem (s : CompactHistoryScroll) (cells : List Character) :
    (s.addCells cells).getCells ((s.addCells cells).getLines - 1) 0 cells.length
      = cells := by
  cases cells with
  | nil => rfl
  | cons c t =>
    unfold CompactHistoryScroll.getCells
    rw [if_neg (by simp)]
    have hlast :
        (s.addCells (c :: t)).lines.getD ((s.addCells (c :: t)).getLines - 1) default
          = mkCompactHistoryLine (c :: t) := by
      unfold CompactHistoryScroll.addCells CompactHistoryScroll.addCellsVector
        CompactHistoryScroll.getLines
      dsimp only
      rw [List.length_append, List.length_cons, List.length_nil, Nat.add_sub_cancel]
      exact getD_append_length _ _ _
    rw [hlast]
    exact getCharacters_mk (c :: t)

/-! ## Claim C9 -/

/-- C9 counterexample: a CompressedLine built from the empty cell
sequence holds exactly one live slab allocation (the line header), not
three: the constructor allocates the format-run and code-point arrays
only for a nonempty line. -/
theorem claim_C9_counterexample :
    (constructLineAllocs 0 []).2 = 1 ∧ (constructLineAllocs 0 []).2 ≠ 3 := by
  constructor <;> decide

/-- C9 (corrected): a CompressedLine built from a nonempty cell sequence
holds exactly three live slab allocations while it lives (line header,
format-run array, codepoint array); one built from an empty sequence
holds exactly one (the header alone).  Destruction releases exactly the
allocations made, returning the allocator to its prior live count in
both cases. -/
theorem claim_C9_theorem (live : Nat) (cells : List Character) :
    (constructLineAllocs live cells).2
        = live + (if cells.length = 0 then 1 else 3)
      ∧ destroyLineAllocs (constructLineAllocs live cells).2
          (constructLineAllocs live cells).1 = live := by
  cases cells with
  | nil => simp [constructLineAllocs, destroyLineAllocs, mkCompactHistoryLine]
  | cons c t =>
    simp [constructLineAllocs, destroyLineAllocs, mkCompactHistoryLine]

end Konsole
